import Mathlib

/-!
Verification development for the hackatime-zed LSP adapter
(`src/hackatime-lsp/main.go`, `src/hackatime-lsp/types.go`, and the
argument-building file `buildHeartbeatArgs`/`quoteArg`/`needsQuoting`).

The Go program is shallowly embedded: each Go function becomes a Lean
function over explicit state.  Go maps become functions `String → Option α`;
`time.Time` values and durations become integer milliseconds (the program
only compares durations at millisecond granularity and only prints times
produced as `UnixMilli()/1000.0`, which carry exactly three decimal digits);
goroutine launches (`go f(x)`) are recorded in explicit ghost logs on the
state rather than executed inline.
-/

namespace Hackatime

/-- Constants from `main.go`. -/
def eventDebounceMs : Int := 50

def batchSendMs : Nat := 120 * 1000

def maxQueueSize : Nat := 100

def cliTimeoutSecs : Nat := 10

/-- The `Heartbeat` struct from `types.go`.  `Time` (a Go `float64` of
seconds) is modelled as the integer number of milliseconds, since the
program always builds it as `float64(time.Now().UnixMilli()) / 1000.0`. -/
structure Heartbeat where
  Entity : String := ""
  EntityType : String := ""
  Category : String := ""
  Time : Int := 0
  Plugin : String := ""
  LineNumber : Int := 0
  CursorPos : Int := 0
  Lines : Int := 0
  AlternateProject : String := ""
  ProjectFolder : String := ""
  IsWrite : Bool := false
  IsUnsaved : Bool := false
  LocalFile : String := ""
  AILineChanges : Int := 0
  HumanLineChanges : Int := 0
  Branch : String := ""
  Language : String := ""
  Hostname : String := ""
  UserAgent : String := ""
deriving Repr, DecidableEq

/-- The character test inside `needsQuoting`: space, tab, double quote or
backslash. -/
def isSpecialChar (c : Char) : Bool :=
  c == ' ' || c == '\t' || c == '"' || c == '\\'

/-- `needsQuoting` from the argument-building file: true iff some rune of
the argument is a space, tab, double quote or backslash. -/
def needsQuoting (arg : String) : Bool :=
  arg.data.any isSpecialChar

/-- Models `strings.ReplaceAll(arg, "\"", "\\\"")`: every double quote is
replaced by a backslash followed by a double quote. -/
def escapeQuotes : List Char → List Char
  | [] => []
  | c :: rest =>
      if c = '"' then '\\' :: '"' :: escapeQuotes rest
      else c :: escapeQuotes rest

/-- `quoteArg`: wrap in double quotes, escaping embedded double quotes,
when the argument needs quoting; otherwise return it unchanged. -/
def quoteArg (arg : String) : String :=
  if needsQuoting arg then String.mk ('"' :: (escapeQuotes arg.data ++ ['"']))
  else arg

/-- Decimal digit character for `k < 10`. -/
def digitChar (k : Nat) : Char := Char.ofNat (48 + k)

/-- Decimal digits, most significant first, by structural recursion on a
fuel bound (`n + 1` always suffices since the argument shrinks by a factor
of ten each step). -/
def natDigitsAux : Nat → Nat → List Char
  | 0, _ => []
  | fuel + 1, n =>
      if n < 10 then [digitChar n]
      else natDigitsAux fuel (n / 10) ++ [digitChar (n % 10)]

/-- Decimal digits of a natural number, most significant first; models the
output of Go `strconv.Itoa` on non-negative values. -/
def natDigits (n : Nat) : List Char := natDigitsAux (n + 1) n

/-- Go `strconv.Itoa`: decimal representation with a leading minus sign for
negative values. -/
def itoa (n : Int) : String :=
  if n < 0 then String.mk ('-' :: natDigits n.natAbs)
  else String.mk (natDigits n.natAbs)

/-- Go `fmt.Sprintf("%.3f", t)` applied to a time that is an exact number
of milliseconds `ms / 1000.0`: the integer part followed by exactly three
fractional digits. -/
def fmtTime3 (ms : Int) : String :=
  let a := ms.natAbs
  let frac := a % 1000
  String.mk ((if ms < 0 then ['-'] else []) ++ natDigits (a / 1000) ++
    '.' :: [digitChar (frac / 100), digitChar (frac / 10 % 10), digitChar (frac % 10)])

/-- Process environment consulted by `buildHeartbeatArgs`: the results of
`getConfigValue "apiKey"` / `getConfigValue "apiUrl"` (empty string when
absent), the `runtime.GOOS == "windows"` test, and the results of
`getConfigFilePath` / `getLogFilePath`. -/
structure ArgsEnv where
  apiKey : String := ""
  apiUrl : String := ""
  isWindows : Bool := false
  configFilePath : String := ""
  logFilePath : String := ""
deriving Repr, DecidableEq

/-- `buildHeartbeatArgs` from the argument-building file, segment by
segment in source order. -/
def buildHeartbeatArgs (env : ArgsEnv) (hb : Heartbeat) : List String :=
  ["--entity", quoteArg hb.Entity]
  ++ ["--time", fmtTime3 hb.Time]
  ++ ["--plugin", quoteArg hb.Plugin]
  ++ ["--lineno", itoa hb.LineNumber]
  ++ ["--cursorpos", itoa hb.CursorPos]
  ++ ["--lines-in-file", itoa hb.Lines]
  ++ (if hb.Category ≠ "" then ["--category", hb.Category] else [])
  ++ (if hb.AILineChanges > 0 then ["--ai-line-changes", itoa hb.AILineChanges] else [])
  ++ (if hb.HumanLineChanges > 0 then ["--human-line-changes", itoa hb.HumanLineChanges] else [])
  ++ (if env.apiKey ≠ "" then ["--key", quoteArg env.apiKey] else [])
  ++ (if env.apiUrl ≠ "" then ["--api-url", quoteArg env.apiUrl] else [])
  ++ (if hb.AlternateProject ≠ "" then ["--alternate-project", quoteArg hb.AlternateProject] else [])
  ++ (if hb.ProjectFolder ≠ "" then ["--project-folder", quoteArg hb.ProjectFolder] else [])
  ++ (if hb.IsWrite then ["--write"] else [])
  ++ (if env.isWindows then
        (if env.configFilePath ≠ "" then ["--config", quoteArg env.configFilePath] else [])
        ++ (if env.logFilePath ≠ "" then ["--log-file", quoteArg env.logFilePath] else [])
      else [])
  ++ (if hb.IsUnsaved then ["--is-unsaved-entity"] else [])
  ++ (if hb.LocalFile ≠ "" then ["--local-file", quoteArg hb.LocalFile] else [])

/-- A rendered argument is wrapped in double quotes. -/
def IsWrapped (v : String) : Prop :=
  ∃ mid : List Char, v.data = '"' :: (mid ++ ['"'])

/-- The output-level consequence of the quoting claim: every value in the
argument vector containing a special character is quote-wrapped. -/
def AllSpecialValuesWrapped (args : List String) : Prop :=
  ∀ v ∈ args, needsQuoting v = true → IsWrapped v

/-- A Go `map[string]V`, modelled as a partial function (`nil` map and
empty map behave identically for the operations the program uses). -/
def StrMap (α : Type) : Type := String → Option α

/-- Go map assignment `m[k] = v`. -/
def mapInsert {α : Type} (m : StrMap α) (k : String) (v : α) : StrMap α :=
  fun e => if e = k then some v else m e

/-- The empty map (also models a `nil` Go map being lazily allocated). -/
def mapEmpty {α : Type} : StrMap α := fun _ => none

/-- `throttledHeartbeat` from `main.go`, restricted to its admit decision
and its update of `lastEventTime` (the admitted heartbeat itself is handed
to `queueHeartbeat` on a fresh goroutine, which the queue model covers).
`m` is `lastEventTime` in milliseconds, `now` the current time in
milliseconds; the result is (admitted, new `lastEventTime`). -/
def throttledHeartbeat (m : StrMap Int) (entity : String) (isWrite : Bool)
    (now : Int) : Bool × StrMap Int :=
  if isWrite then (true, mapInsert m entity now)
  else
    match m entity with
    | none => (true, mapInsert m entity now)
    | some lastTime =>
        if eventDebounceMs ≤ now - lastTime then (true, mapInsert m entity now)
        else (false, m)

/-- Run the throttle over a sequence of non-write (change) events for one
document, pairing each event time with its admit decision. -/
def runThrottleLog (entity : String) (m : StrMap Int) : List Int → List (Int × Bool)
  | [] => []
  | t :: ts =>
      let r := throttledHeartbeat m entity false t
      (t, r.1) :: runThrottleLog entity r.2 ts

/-- The times of the admitted events in a run of the throttle. -/
def admittedTimes (entity : String) (m : StrMap Int) (ts : List Int) : List Int :=
  ((runThrottleLog entity m ts).filter (fun p => p.2)).map Prod.fst

/-- Process-wide project state set once by the `Initialize` handler:
the globals `projectRoot` and `projectFolder` from `main.go`. -/
structure ProjectEnv where
  projectRoot : String := ""
  projectFolder : String := ""
deriving Repr, DecidableEq

/-- Go `filepath.Base` (slash-separated paths): empty path gives `"."`,
trailing slashes are stripped, then everything up to and including the last
slash is dropped; an all-slash path gives `"/"`. -/
def filepathBase (p : String) : String :=
  if p = "" then "."
  else
    let stripped := (p.data.reverse.dropWhile (fun c => c == '/')).reverse
    let last := (stripped.reverse.takeWhile (fun c => c != '/')).reverse
    if last = [] then "/" else String.mk last

/-- The field-population prologue of `queueHeartbeat`: fill in the
alternate-project and project-folder fields from the process-wide project
state when they are empty. -/
def populateProject (env : ProjectEnv) (hb : Heartbeat) : Heartbeat :=
  let hb :=
    if hb.AlternateProject = "" ∧ env.projectRoot ≠ "" then
      { hb with AlternateProject := filepathBase env.projectRoot }
    else hb
  if hb.ProjectFolder = "" ∧ env.projectFolder ≠ "" then
    { hb with ProjectFolder := env.projectFolder }
  else hb

/-- The mutable state guarded by `queueMutex` in `main.go`:
`heartbeatQueue`, the `batchSendTimer` reference (modelled by the number of
pending timers, `nil` being `0`), and `lastSentTime` (milliseconds).
`sent` is a ghost log of the heartbeats handed to `go sendHeartbeat(hb)`,
in dispatch order. -/
structure QState where
  heartbeatQueue : List Heartbeat := []
  batchSendTimer : Nat := 0
  lastSentTime : Option Int := none
  sent : List Heartbeat := []
deriving Repr, DecidableEq

/-- `scheduleBatchSend`: if a timer is already active do nothing, else
start one. -/
def scheduleBatchSend (s : QState) : QState :=
  if s.batchSendTimer ≠ 0 then s
  else { s with batchSendTimer := 1 }

/-- `flushHeartbeats`: under the queue lock, pop one heartbeat from the
head (no-op when empty), dispatch it (`go sendHeartbeat(hb)`, recorded in
`sent`), record `lastSentTime`, and reschedule if the queue is still
non-empty. -/
def flushHeartbeats (now : Int) (s : QState) : QState :=
  match s.heartbeatQueue with
  | [] => s
  | hb :: rest =>
      let s' : QState :=
        { s with heartbeatQueue := rest, sent := s.sent ++ [hb], lastSentTime := some now }
      if rest ≠ [] then scheduleBatchSend s' else s'

/-- `queueHeartbeat`: populate project fields, append at the tail, then
either trigger an immediate asynchronous flush (`go flushHeartbeats()`,
returned as the Boolean flag rather than run inline) when the queue has
reached `maxQueueSize`, or schedule a deferred flush when the queue just
became non-empty. -/
def queueHeartbeat (env : ProjectEnv) (hb : Heartbeat) (s : QState) : QState × Bool :=
  let hb' := populateProject env hb
  let q := s.heartbeatQueue ++ [hb']
  let s' : QState := { s with heartbeatQueue := q }
  if maxQueueSize ≤ q.length then (s', true)
  else if q.length = 1 then (scheduleBatchSend s', false)
  else (s', false)

/-- The batch timer firing: the callback clears its own reference and then
calls `flushHeartbeats`. -/
def timerFire (now : Int) (s : QState) : QState :=
  flushHeartbeats now { s with batchSendTimer := s.batchSendTimer - 1 }

/-- A sequential history of queue operations (deliveries dispatched in the
order the flushes run, as the FIFO claim assumes). -/
inductive QOp where
  | enq (hb : Heartbeat)
  | flush (now : Int)
  | fire (now : Int)
deriving Repr, DecidableEq

/-- Apply one queue operation. -/
def applyQOp (env : ProjectEnv) (s : QState) : QOp → QState
  | .enq hb => (queueHeartbeat env hb s).1
  | .flush now => flushHeartbeats now s
  | .fire now => timerFire now s

/-- Run a sequence of queue operations. -/
def runQOps (env : ProjectEnv) (s : QState) : List QOp → QState
  | [] => s
  | op :: ops => runQOps env (applyQOp env s op) ops

/-- The records a history enqueues, in insertion order, as they are
inserted (project fields populated). -/
def enqueuedRecords (env : ProjectEnv) (ops : List QOp) : List Heartbeat :=
  ops.filterMap (fun op =>
    match op with
    | .enq hb => some (populateProject env hb)
    | _ => none)

/-- `saveCursorPosition` from `main.go`: stores the column; the line
argument is accepted but not stored. -/
def saveCursorPosition (m : StrMap Int) (uri : String) (_line pos : Int) : StrMap Int :=
  mapInsert m uri pos

/-- `getCursorPosition` from `main.go`: the stored column, or 0 when none
was ever recorded. -/
def getCursorPosition (m : StrMap Int) (uri : String) : Int :=
  match m uri with
  | some pos => pos
  | none => 0

/-- Go `len(strings.Split(t, "\n"))`: for a single-character separator this
is the number of newline characters plus one (also on the empty string,
where `strings.Split` returns one empty piece). -/
def splitLines (t : String) : Int :=
  (t.data.count '\n') + 1

/-- An LSP position (`protocol.Position`). -/
structure LspPosition where
  line : Nat
  character : Nat
deriving Repr, DecidableEq

/-- An LSP range (`protocol.Range`); only `start` is read by the program. -/
structure LspRange where
  start : LspPosition
  finish : LspPosition
deriving Repr, DecidableEq

/-- One element of `params.ContentChanges`: either a
`protocol.TextDocumentContentChangeEvent` (optional range plus text) or a
`protocol.TextDocumentContentChangeEventWhole`, for which the handler's
type assertion to `TextDocumentContentChangeEvent` fails. -/
inductive ContentChange where
  | event (range : Option LspRange) (text : String)
  | whole (text : String)
deriving Repr, DecidableEq

/-- The line/lineNumber/cursorPos computation at the top of the
`TextDocumentDidChange` handler. -/
def changeFields (changes : List ContentChange) : Int × Int × Int :=
  match changes with
  | [] => (1, 1, 0)
  | change :: _ =>
      match change with
      | .whole _ => (1, 1, 0)
      | .event r t =>
          let lineCursor : Int × Int :=
            match r with
            | some rg => ((rg.start.line : Int) + 1, (rg.start.character : Int))
            | none => (1, 0)
          let lines : Int := if t ≠ "" then splitLines t else 1
          (lines, lineCursor.1, lineCursor.2)

/-- The `TextDocumentDidChange` handler: compute the fields, store the
cursor position, and build the heartbeat (which is then logged and handed
to the throttle). Returns the heartbeat and the updated cursor map. -/
def TextDocumentDidChange (m : StrMap Int) (uri : String)
    (changes : List ContentChange) (timeMs : Int) : Heartbeat × StrMap Int :=
  let f := changeFields changes
  let m' := saveCursorPosition m uri f.2.1 f.2.2
  ({ Entity := uri, EntityType := "file", Category := "coding", Plugin := "Zed",
     Time := timeMs, LineNumber := f.2.1, CursorPos := f.2.2, Lines := f.1 }, m')

/-- The `TextDocumentDidSave` handler: line count from the full saved text
when present, line number 1, cursor position from the Cursor Tracker, and
the write flag set. -/
def TextDocumentDidSave (m : StrMap Int) (uri : String)
    (text : Option String) (timeMs : Int) : Heartbeat :=
  { Entity := uri, EntityType := "file", Category := "coding", Plugin := "Zed",
    Time := timeMs, LineNumber := 1,
    Lines := match text with | some t => splitLines t | none => 1,
    CursorPos := getCursorPosition m uri, IsWrite := true }

/-- `sendHeartbeat` from `main.go`.  The external process run is a
parameter `run`, returning `cmd.Run()`'s error (`none` for nil).  The
second component is the ghost log of spawned processes (executable and
argument vector); a configuration error spawns nothing and builds no
arguments. -/
def sendHeartbeat (cliPath : String) (run : String → List String → Option String)
    (env : ArgsEnv) (hb : Heartbeat) : Option String × List (String × List String) :=
  if cliPath = "" then (some "wakatime-cli path not provided", [])
  else
    let args := buildHeartbeatArgs env hb
    (run cliPath args, [(cliPath, args)])

theorem scheduleBatchSend_heartbeatQueue (s : QState) :
    (scheduleBatchSend s).heartbeatQueue = s.heartbeatQueue := by
  unfold scheduleBatchSend; split <;> rfl

theorem scheduleBatchSend_sent (s : QState) :
    (scheduleBatchSend s).sent = s.sent := by
  unfold scheduleBatchSend; split <;> rfl

theorem scheduleBatchSend_timer (s : QState) :
    (scheduleBatchSend s).batchSendTimer =
      (if s.batchSendTimer = 0 then 1 else s.batchSendTimer) := by
  unfold scheduleBatchSend
  by_cases h : s.batchSendTimer = 0 <;> simp [h]

theorem queueHeartbeat_state (env : ProjectEnv) (hb : Heartbeat) (s : QState) :
    (queueHeartbeat env hb s).1.heartbeatQueue
        = s.heartbeatQueue ++ [populateProject env hb]
      ∧ (queueHeartbeat env hb s).1.sent = s.sent
      ∧ (queueHeartbeat env hb s).1.lastSentTime = s.lastSentTime := by
  simp only [queueHeartbeat]
  split
  · exact ⟨rfl, rfl, rfl⟩
  · split
    · exact ⟨scheduleBatchSend_heartbeatQueue _, scheduleBatchSend_sent _, by
        unfold scheduleBatchSend; split <;> rfl⟩
    · exact ⟨rfl, rfl, rfl⟩

theorem flushHeartbeats_empty (now : Int) (s : QState)
    (h : s.heartbeatQueue = []) : flushHeartbeats now s = s := by
  unfold flushHeartbeats
  obtain ⟨q, timer, last, sent⟩ := s
  simp only at h
  subst h
  rfl

theorem flushHeartbeats_cons (now : Int) (s : QState) (hb : Heartbeat)
    (rest : List Heartbeat) (h : s.heartbeatQueue = hb :: rest) :
    (flushHeartbeats now s).heartbeatQueue = rest
      ∧ (flushHeartbeats now s).sent = s.sent ++ [hb]
      ∧ (flushHeartbeats now s).lastSentTime = some now
      ∧ (flushHeartbeats now s).batchSendTimer =
          (if rest = [] then s.batchSendTimer
           else if s.batchSendTimer = 0 then 1 else s.batchSendTimer) := by
  unfold flushHeartbeats
  obtain ⟨q, timer, last, sent⟩ := s
  simp only at h
  subst h
  by_cases hr : rest = []
  · subst hr; simp
  · by_cases ht : timer = 0 <;> simp [scheduleBatchSend, hr, ht]

theorem flushHeartbeats_timer_le (now : Int) (s : QState)
    (h : s.batchSendTimer ≤ 1) : (flushHeartbeats now s).batchSendTimer ≤ 1 := by
  match hq : s.heartbeatQueue with
  | [] => rw [flushHeartbeats_empty now s hq]; exact h
  | hb :: rest =>
      rw [(flushHeartbeats_cons now s hb rest hq).2.2.2]
      split
      · exact h
      · split <;> omega

theorem scheduleBatchSend_timer_le (s : QState) (h : s.batchSendTimer ≤ 1) :
    (scheduleBatchSend s).batchSendTimer ≤ 1 := by
  rw [scheduleBatchSend_timer]; split <;> omega

theorem queueHeartbeat_timer_le (env : ProjectEnv) (hb : Heartbeat) (s : QState)
    (h : s.batchSendTimer ≤ 1) : (queueHeartbeat env hb s).1.batchSendTimer ≤ 1 := by
  simp only [queueHeartbeat]
  split
  · exact h
  · split
    · exact scheduleBatchSend_timer_le _ h
    · exact h

theorem populateProject_alternate (env : ProjectEnv) (hb : Heartbeat) :
    (populateProject env hb).AlternateProject =
      (if hb.AlternateProject = "" ∧ env.projectRoot ≠ "" then filepathBase env.projectRoot
       else hb.AlternateProject) := by
  simp only [populateProject]
  by_cases h1 : hb.AlternateProject = "" ∧ env.projectRoot ≠ ""
  · simp only [if_pos h1]
    split <;> rfl
  · simp only [if_neg h1]
    split <;> rfl

theorem populateProject_folder (env : ProjectEnv) (hb : Heartbeat) :
    (populateProject env hb).ProjectFolder =
      (if hb.ProjectFolder = "" ∧ env.projectFolder ≠ "" then env.projectFolder
       else hb.ProjectFolder) := by
  simp only [populateProject]
  split <;> split <;> rfl

/-- Claim C2: if the heartbeat queue is empty, `flushHeartbeats` leaves the
whole state unchanged; otherwise it removes exactly the record at the head
of the queue, records the current time as the last-sent time, dispatches
that record to the Delivery Client, and, when the queue is still non-empty
after the removal, schedules another deferred flush (making the timer
active, and leaving it alone otherwise); no invocation removes more than
one record. -/
theorem claim_C2_flush_removes_one :
    (∀ (now : Int) (s : QState), s.heartbeatQueue = [] → flushHeartbeats now s = s)
    ∧ (∀ (now : Int) (s : QState) (hb : Heartbeat) (rest : List Heartbeat),
        s.heartbeatQueue = hb :: rest →
          (flushHeartbeats now s).heartbeatQueue = rest
          ∧ (flushHeartbeats now s).sent = s.sent ++ [hb]
          ∧ (flushHeartbeats now s).lastSentTime = some now
          ∧ (rest ≠ [] → (flushHeartbeats now s).batchSendTimer ≠ 0)
          ∧ (rest = [] → (flushHeartbeats now s).batchSendTimer = s.batchSendTimer))
    ∧ (∀ (now : Int) (s : QState),
        (flushHeartbeats now s).heartbeatQueue.length = s.heartbeatQueue.length - 1) := by
  refine ⟨flushHeartbeats_empty, ?_, ?_⟩
  · intro now s hb rest h
    obtain ⟨h1, h2, h3, h4⟩ := flushHeartbeats_cons now s hb rest h
    refine ⟨h1, h2, h3, ?_, ?_⟩
    · intro hr
      rw [h4, if_neg hr]
      split <;> omega
    · intro hr
      rw [h4, if_pos hr]
  · intro now s
    match hq : s.heartbeatQueue with
    | [] =>
        rw [flushHeartbeats_empty now s hq, hq]
        simp
    | hb :: rest =>
        rw [(flushHeartbeats_cons now s hb rest hq).1]
        simp [hq]

/-- Claim C2 witness: flushing a two-element queue pops exactly the head. -/
theorem claim_C2_flush_removes_one_witness :
    (flushHeartbeats 5 { heartbeatQueue := [{ Entity := "/a.go" }, { Entity := "/b.go" }] }).heartbeatQueue
      = [{ Entity := "/b.go" }] :=
  (claim_C2_flush_removes_one.2.1 5
    { heartbeatQueue := [{ Entity := "/a.go" }, { Entity := "/b.go" }] }
    { Entity := "/a.go" } [{ Entity := "/b.go" }] rfl).1

/-- Claim C3: at most one pending deferred-flush timer exists at any
moment (every operation preserves the timer count being at most one);
enqueuing into an empty queue with no pending timer schedules exactly one
deferred flush; `scheduleBatchSend` with a timer already pending does
nothing; and enqueuing again while the timer is pending leaves exactly the
one timer. -/
theorem claim_C3_single_batch_timer :
    (∀ s : QState, s.batchSendTimer ≠ 0 → scheduleBatchSend s = s)
    ∧ (∀ s : QState, s.batchSendTimer = 0 → (scheduleBatchSend s).batchSendTimer = 1)
    ∧ (∀ (env : ProjectEnv) (hb : Heartbeat) (s : QState),
        s.heartbeatQueue = [] → s.batchSendTimer = 0 →
          (queueHeartbeat env hb s).1.batchSendTimer = 1)
    ∧ (∀ (env : ProjectEnv) (hb : Heartbeat) (s : QState),
        s.batchSendTimer = 1 → (queueHeartbeat env hb s).1.batchSendTimer = 1)
    ∧ (∀ (env : ProjectEnv) (s : QState) (op : QOp),
        s.batchSendTimer ≤ 1 → (applyQOp env s op).batchSendTimer ≤ 1) := by
  refine ⟨?_, ?_, ?_, ?_, ?_⟩
  · intro s h; unfold scheduleBatchSend; rw [if_pos h]
  · intro s h; rw [scheduleBatchSend_timer, if_pos h]
  · intro env hb s hq ht
    simp [queueHeartbeat, hq, scheduleBatchSend, ht, maxQueueSize]
  · intro env hb s ht
    simp only [queueHeartbeat]
    split
    · exact ht
    · split
      · rw [scheduleBatchSend_timer]
        show (if s.batchSendTimer = 0 then 1 else s.batchSendTimer) = 1
        rw [ht]
        rfl
      · exact ht
  · intro env s op h
    match op with
    | .enq hb => exact queueHeartbeat_timer_le env hb s h
    | .flush now => exact flushHeartbeats_timer_le now s h
    | .fire now =>
        exact flushHeartbeats_timer_le now { s with batchSendTimer := s.batchSendTimer - 1 }
          (by simp only; omega)

/-- Claim C3 witness: two back-to-back enqueues starting from the empty
state leave exactly one pending timer. -/
theorem claim_C3_single_batch_timer_witness :
    (queueHeartbeat {} { Entity := "/b.go" }
      (queueHeartbeat {} { Entity := "/a.go" } {}).1).1.batchSendTimer = 1 :=
  claim_C3_single_batch_timer.2.2.2.1 {} { Entity := "/b.go" } _
    (claim_C3_single_batch_timer.2.2.1 {} { Entity := "/a.go" } {} rfl rfl)

/-- Claim C4: the immediate asynchronous flush is triggered by an enqueue
exactly when the queue size after insertion has reached `maxQueueSize`
(independently of the timer state, over which the statement quantifies);
in particular the 100th insertion triggers it and insertions leaving the
size strictly between 1 and 100 do not. -/
theorem claim_C4_size_cap_flush :
    (∀ (env : ProjectEnv) (hb : Heartbeat) (s : QState),
      ((queueHeartbeat env hb s).2 = true ↔ maxQueueSize ≤ s.heartbeatQueue.length + 1))
    ∧ (∀ (env : ProjectEnv) (hb : Heartbeat) (s : QState),
        s.heartbeatQueue.length + 1 = maxQueueSize → (queueHeartbeat env hb s).2 = true)
    ∧ (∀ (env : ProjectEnv) (hb : Heartbeat) (s : QState),
        1 < s.heartbeatQueue.length + 1 → s.heartbeatQueue.length + 1 < maxQueueSize →
          (queueHeartbeat env hb s).2 = false) := by
  have key : ∀ (env : ProjectEnv) (hb : Heartbeat) (s : QState),
      ((queueHeartbeat env hb s).2 = true ↔ maxQueueSize ≤ s.heartbeatQueue.length + 1) := by
    intro env hb s
    simp only [queueHeartbeat, List.length_append, List.length_singleton]
    by_cases h : maxQueueSize ≤ s.heartbeatQueue.length + 1
    · rw [if_pos h]; simpa using h
    · rw [if_neg h]
      by_cases h1 : s.heartbeatQueue.length + 1 = 1
      · rw [if_pos h1]; simpa using h
      · rw [if_neg h1]; simpa using h
  refine ⟨key, ?_, ?_⟩
  · intro env hb s h
    exact (key env hb s).mpr (by omega)
  · intro env hb s h1 h2
    by_cases hq : (queueHeartbeat env hb s).2 = true
    · exact absurd ((key env hb s).mp hq) (by omega)
    · simpa using hq

/-- Claim C4 witness: enqueuing onto a 99-element queue triggers the
immediate flush; enqueuing onto a 1-element queue does not. -/
theorem claim_C4_size_cap_flush_witness :
    (queueHeartbeat {} {} { heartbeatQueue := List.replicate 99 {} }).2 = true
    ∧ (queueHeartbeat {} {} { heartbeatQueue := List.replicate 1 {} }).2 = false :=
  ⟨claim_C4_size_cap_flush.2.1 {} {} { heartbeatQueue := List.replicate 99 {} } (by decide),
   claim_C4_size_cap_flush.2.2 {} {} { heartbeatQueue := List.replicate 1 {} }
     (by decide) (by decide)⟩

/-- Claim C5: enqueue appends exactly the populated record; the populated
record's alternate-project field is filled with the base name of the
process-wide project root only when the field was empty and the root is
non-empty, the project-folder field is filled with the process-wide
project folder only when the field was empty and that state is non-empty,
already non-empty fields keep their values, and every other field of the
record is unchanged. -/
theorem claim_C5_project_population :
    (∀ (env : ProjectEnv) (hb : Heartbeat) (s : QState),
      (queueHeartbeat env hb s).1.heartbeatQueue = s.heartbeatQueue ++ [populateProject env hb])
    ∧ (∀ (env : ProjectEnv) (hb : Heartbeat), hb.AlternateProject = "" → env.projectRoot ≠ "" →
        (populateProject env hb).AlternateProject = filepathBase env.projectRoot)
    ∧ (∀ (env : ProjectEnv) (hb : Heartbeat), hb.AlternateProject ≠ "" →
        (populateProject env hb).AlternateProject = hb.AlternateProject)
    ∧ (∀ (env : ProjectEnv) (hb : Heartbeat), env.projectRoot = "" →
        (populateProject env hb).AlternateProject = hb.AlternateProject)
    ∧ (∀ (env : ProjectEnv) (hb : Heartbeat), hb.ProjectFolder = "" → env.projectFolder ≠ "" →
        (populateProject env hb).ProjectFolder = env.projectFolder)
    ∧ (∀ (env : ProjectEnv) (hb : Heartbeat), hb.ProjectFolder ≠ "" →
        (populateProject env hb).ProjectFolder = hb.ProjectFolder)
    ∧ (∀ (env : ProjectEnv) (hb : Heartbeat), env.projectFolder = "" →
        (populateProject env hb).ProjectFolder = hb.ProjectFolder)
    ∧ (∀ (env : ProjectEnv) (hb : Heartbeat),
        (populateProject env hb).Entity = hb.Entity
        ∧ (populateProject env hb).EntityType = hb.EntityType
        ∧ (populateProject env hb).Category = hb.Category
        ∧ (populateProject env hb).Time = hb.Time
        ∧ (populateProject env hb).Plugin = hb.Plugin
        ∧ (populateProject env hb).LineNumber = hb.LineNumber
        ∧ (populateProject env hb).CursorPos = hb.CursorPos
        ∧ (populateProject env hb).Lines = hb.Lines
        ∧ (populateProject env hb).IsWrite = hb.IsWrite
        ∧ (populateProject env hb).IsUnsaved = hb.IsUnsaved
        ∧ (populateProject env hb).LocalFile = hb.LocalFile
        ∧ (populateProject env hb).AILineChanges = hb.AILineChanges
        ∧ (populateProject env hb).HumanLineChanges = hb.HumanLineChanges
        ∧ (populateProject env hb).Branch = hb.Branch
        ∧ (populateProject env hb).Language = hb.Language
        ∧ (populateProject env hb).Hostname = hb.Hostname
        ∧ (populateProject env hb).UserAgent = hb.UserAgent) := by
  refine ⟨fun env hb s => (queueHeartbeat_state env hb s).1, ?_, ?_, ?_, ?_, ?_, ?_, ?_⟩
  · intro env hb h1 h2
    rw [populateProject_alternate, if_pos ⟨h1, h2⟩]
  · intro env hb h1
    rw [populateProject_alternate, if_neg (fun hc => h1 hc.1)]
  · intro env hb h1
    rw [populateProject_alternate, if_neg (fun hc => hc.2 h1)]
  · intro env hb h1 h2
    rw [populateProject_folder, if_pos ⟨h1, h2⟩]
  · intro env hb h1
    rw [populateProject_folder, if_neg (fun hc => h1 hc.1)]
  · intro env hb h1
    rw [populateProject_folder, if_neg (fun hc => hc.2 h1)]
  · intro env hb
    simp only [populateProject]
    split <;> split <;> simp

/-- Claim C5 witness: a blank heartbeat enqueued with project root `/repo`
carries alternate-project `repo` and project-folder `/repo`. -/
theorem claim_C5_project_population_witness :
    (populateProject { projectRoot := "/repo", projectFolder := "/repo" } {}).AlternateProject = "repo"
    ∧ (populateProject { projectRoot := "/repo", projectFolder := "/repo" } {}).ProjectFolder = "/repo" :=
  ⟨(claim_C5_project_population.2.1 { projectRoot := "/repo", projectFolder := "/repo" } {}
      rfl (by decide)).trans (by decide),
   claim_C5_project_population.2.2.2.2.1 { projectRoot := "/repo", projectFolder := "/repo" } {}
     rfl (by decide)⟩

/-- Claim C6: invoking the Delivery Client with an unset executable path
returns the configuration error at once, with no argument vector built and
no process spawned; with a set path, the external process's result on the
built argument vector is returned to the caller and exactly that one
process is spawned. -/
theorem claim_C6_delivery_config_error :
    (∀ (run : String → List String → Option String) (env : ArgsEnv) (hb : Heartbeat),
      sendHeartbeat "" run env hb = (some "wakatime-cli path not provided", []))
    ∧ (∀ (cliPath : String) (run : String → List String → Option String)
        (env : ArgsEnv) (hb : Heartbeat), cliPath ≠ "" →
          sendHeartbeat cliPath run env hb
            = (run cliPath (buildHeartbeatArgs env hb),
               [(cliPath, buildHeartbeatArgs env hb)])) := by
  constructor
  · intro run env hb; rfl
  · intro cliPath run env hb h
    unfold sendHeartbeat
    rw [if_neg h]

/-- Claim C6 witness: with no path the error is returned and nothing is
spawned; with a path the runner's verdict is passed through. -/
theorem claim_C6_delivery_config_error_witness :
    sendHeartbeat "" (fun _ _ => none) {} {} = (some "wakatime-cli path not provided", [])
    ∧ sendHeartbeat "/usr/bin/wakatime-cli" (fun _ _ => none) {} {}
        = (none, [("/usr/bin/wakatime-cli", buildHeartbeatArgs {} {})]) :=
  ⟨claim_C6_delivery_config_error.1 (fun _ _ => none) {} {},
   claim_C6_delivery_config_error.2 "/usr/bin/wakatime-cli" (fun _ _ => none) {} {} (by decide)⟩

/-- Claim C8: `getCursorPosition` returns the stored column for the
document, or 0 when none was ever recorded (and returns the column just
saved by `saveCursorPosition`); hence a save event for a document with no
recorded cursor yields a heartbeat with line number 1, cursor position 0,
and the write flag set. -/
theorem claim_C8_cursor_default :
    (∀ (m : StrMap Int) (uri : String) (pos : Int), m uri = some pos →
      getCursorPosition m uri = pos)
    ∧ (∀ (m : StrMap Int) (uri : String), m uri = none → getCursorPosition m uri = 0)
    ∧ (∀ (m : StrMap Int) (uri : String) (line pos : Int),
        getCursorPosition (saveCursorPosition m uri line pos) uri = pos)
    ∧ (∀ (m : StrMap Int) (uri : String) (text : Option String) (t : Int), m uri = none →
        (TextDocumentDidSave m uri text t).LineNumber = 1
        ∧ (TextDocumentDidSave m uri text t).CursorPos = 0
        ∧ (TextDocumentDidSave m uri text t).IsWrite = true) := by
  refine ⟨?_, ?_, ?_, ?_⟩
  · intro m uri pos h; unfold getCursorPosition; rw [h]
  · intro m uri h; unfold getCursorPosition; rw [h]
  · intro m uri line pos
    unfold getCursorPosition saveCursorPosition mapInsert
    simp
  · intro m uri text t h
    refine ⟨rfl, ?_, rfl⟩
    show getCursorPosition m uri = 0
    unfold getCursorPosition; rw [h]

/-- Claim C8 witness: a save of `/a.go` with no prior change produces line
number 1, cursor position 0 and the write flag. -/
theorem claim_C8_cursor_default_witness :
    (TextDocumentDidSave mapEmpty "/a.go" (some "package main\n") 7).LineNumber = 1
    ∧ (TextDocumentDidSave mapEmpty "/a.go" (some "package main\n") 7).CursorPos = 0
    ∧ (TextDocumentDidSave mapEmpty "/a.go" (some "package main\n") 7).IsWrite = true :=
  claim_C8_cursor_default.2.2.2 mapEmpty "/a.go" (some "package main\n") 7 rfl

/-- Claim C10 counterexample: a change notification whose first change is
a typed change event carrying no range but non-empty text `"x\ny"` yields
line count 2, not the line count 1 the claim asserts for every
no-range first change. -/
theorem claim_C10_counterexample :
    (TextDocumentDidChange mapEmpty "/a.go" [ContentChange.event none "x\ny"] 0).1.Lines = 2
    ∧ ¬ ((TextDocumentDidChange mapEmpty "/a.go"
          [ContentChange.event none "x\ny"] 0).1.Lines = 1) := by
  constructor <;> decide

/-- Claim C10 (amended): a change notification with an empty change list,
or whose first change fails the typed-event assertion (whole-document
form), produces line number 1, cursor position 0 and line count 1; a
first typed change with no range produces line number 1 and cursor
position 0, with line count 1 only when its text is empty and otherwise
the newline-segment count of the text; in all these cases the tracked
cursor position for the document is unconditionally overwritten with 0,
so a subsequent save reports cursor position 0 even if an earlier change
had recorded a non-zero column. -/
theorem claim_C10_degenerate_change :
    (∀ (m : StrMap Int) (uri : String) (t : Int),
      (TextDocumentDidChange m uri [] t).1.LineNumber = 1
      ∧ (TextDocumentDidChange m uri [] t).1.CursorPos = 0
      ∧ (TextDocumentDidChange m uri [] t).1.Lines = 1
      ∧ (TextDocumentDidChange m uri [] t).2 uri = some 0)
    ∧ (∀ (m : StrMap Int) (uri : String) (t : Int) (txt : String) (rest : List ContentChange),
        (TextDocumentDidChange m uri (ContentChange.whole txt :: rest) t).1.LineNumber = 1
        ∧ (TextDocumentDidChange m uri (ContentChange.whole txt :: rest) t).1.CursorPos = 0
        ∧ (TextDocumentDidChange m uri (ContentChange.whole txt :: rest) t).1.Lines = 1
        ∧ (TextDocumentDidChange m uri (ContentChange.whole txt :: rest) t).2 uri = some 0)
    ∧ (∀ (m : StrMap Int) (uri : String) (t : Int) (txt : String) (rest : List ContentChange),
        (TextDocumentDidChange m uri (ContentChange.event none txt :: rest) t).1.LineNumber = 1
        ∧ (TextDocumentDidChange m uri (ContentChange.event none txt :: rest) t).1.CursorPos = 0
        ∧ (TextDocumentDidChange m uri (ContentChange.event none txt :: rest) t).1.Lines
            = (if txt = "" then 1 else splitLines txt)
        ∧ (TextDocumentDidChange m uri (ContentChange.event none txt :: rest) t).2 uri = some 0)
    ∧ (∀ (m : StrMap Int) (uri : String) (text : Option String) (ts : Int),
        m uri = some 0 → (TextDocumentDidSave m uri text ts).CursorPos = 0) := by
  refine ⟨?_, ?_, ?_, ?_⟩
  · intro m uri t
    refine ⟨rfl, rfl, rfl, ?_⟩
    show mapInsert m uri 0 uri = some 0
    simp [mapInsert]
  · intro m uri t txt rest
    refine ⟨rfl, rfl, rfl, ?_⟩
    show mapInsert m uri 0 uri = some 0
    simp [mapInsert]
  · intro m uri t txt rest
    refine ⟨rfl, rfl, ?_, ?_⟩
    · show (changeFields (ContentChange.event none txt :: rest)).1
          = (if txt = "" then 1 else splitLines txt)
      simp only [changeFields]
      by_cases h : txt = "" <;> simp [h]
    · show mapInsert m uri 0 uri = some 0
      simp [mapInsert]
  · intro m uri text ts h
    show getCursorPosition m uri = 0
    unfold getCursorPosition; rw [h]

theorem flushHeartbeats_sent_queue (now : Int) (s : QState) :
    (flushHeartbeats now s).sent ++ (flushHeartbeats now s).heartbeatQueue
      = s.sent ++ s.heartbeatQueue := by
  match hq : s.heartbeatQueue with
  | [] =>
      rw [flushHeartbeats_empty now s hq, hq]
  | hb :: rest =>
      obtain ⟨h1, h2, _, _⟩ := flushHeartbeats_cons now s hb rest hq
      rw [h1, h2]
      simp [hq]

theorem applyQOp_sent_queue (env : ProjectEnv) (s : QState) (op : QOp) :
    (applyQOp env s op).sent ++ (applyQOp env s op).heartbeatQueue
      = s.sent ++ s.heartbeatQueue ++
        (match op with
         | QOp.enq hb => [populateProject env hb]
         | _ => []) := by
  match op with
  | .enq hb =>
      show (queueHeartbeat env hb s).1.sent ++ (queueHeartbeat env hb s).1.heartbeatQueue = _
      rw [(queueHeartbeat_state env hb s).2.1, (queueHeartbeat_state env hb s).1]
      simp
  | .flush now =>
      show (flushHeartbeats now s).sent ++ (flushHeartbeats now s).heartbeatQueue = _
      rw [flushHeartbeats_sent_queue]
      simp
  | .fire now =>
      show (timerFire now s).sent ++ (timerFire now s).heartbeatQueue = _
      unfold timerFire
      rw [flushHeartbeats_sent_queue]
      simp

theorem runQOps_sent_queue (env : ProjectEnv) :
    ∀ (ops : List QOp) (s : QState),
      (runQOps env s ops).sent ++ (runQOps env s ops).heartbeatQueue
        = s.sent ++ s.heartbeatQueue ++ enqueuedRecords env ops := by
  intro ops
  induction ops with
  | nil =>
      intro s
      simp [runQOps, enqueuedRecords]
  | cons op ops ih =>
      intro s
      show (runQOps env (applyQOp env s op) ops).sent ++
          (runQOps env (applyQOp env s op) ops).heartbeatQueue = _
      rw [ih (applyQOp env s op), applyQOp_sent_queue]
      match op with
      | .enq hb => simp [enqueuedRecords]
      | .flush now => simp [enqueuedRecords]
      | .fire now => simp [enqueuedRecords]

/-- Claim C9: running any sequential history of enqueues and flushes, the
dispatched records followed by the remaining queue equal the previously
held records followed by the records enqueued in insertion order; hence
starting from the empty state the records handed to the Delivery Client
are a prefix of the enqueued records in insertion order. -/
theorem claim_C9_fifo_order :
    (∀ (env : ProjectEnv) (s : QState) (ops : List QOp),
      (runQOps env s ops).sent ++ (runQOps env s ops).heartbeatQueue
        = s.sent ++ s.heartbeatQueue ++ enqueuedRecords env ops)
    ∧ (∀ (env : ProjectEnv) (ops : List QOp),
        ∃ rest : List Heartbeat,
          (runQOps env {} ops).sent ++ rest = enqueuedRecords env ops) := by
  constructor
  · intro env s ops
    exact runQOps_sent_queue env ops s
  · intro env ops
    refine ⟨(runQOps env {} ops).heartbeatQueue, ?_⟩
    have h := runQOps_sent_queue env ops {}
    simpa using h

/-- Claim C10 witness: after a no-range change on a document whose tracked
column was 5, a save reports cursor position 0. -/
theorem claim_C10_degenerate_change_witness :
    (TextDocumentDidSave
        (TextDocumentDidChange (mapInsert mapEmpty "/a.go" 5) "/a.go"
          [ContentChange.event none "x\ny"] 0).2
        "/a.go" (some "x\ny\nz") 1).CursorPos = 0 :=
  claim_C10_degenerate_change.2.2.2
    (TextDocumentDidChange (mapInsert mapEmpty "/a.go" 5) "/a.go"
      [ContentChange.event none "x\ny"] 0).2
    "/a.go" (some "x\ny\nz") 1 (by decide)

theorem throttled_write_spec (m : StrMap Int) (e : String) (now : Int) :
    (throttledHeartbeat m e true now).1 = true
      ∧ (throttledHeartbeat m e true now).2 e = some now := by
  unfold throttledHeartbeat mapInsert
  simp

theorem throttled_nonwrite_iff (m : StrMap Int) (e : String) (now : Int) :
    (throttledHeartbeat m e false now).1 = true
      ↔ (m e = none ∨ ∃ t, m e = some t ∧ eventDebounceMs ≤ now - t) := by
  unfold throttledHeartbeat
  match h : m e with
  | none => simp [h]
  | some t =>
      by_cases hle : eventDebounceMs ≤ now - t
      · simp [h, hle]
      · simp only [h, if_neg hle]
        constructor
        · intro hfalse
          exact absurd hfalse (by simp)
        · intro hor
          rcases hor with hnone | ⟨t', ht', hle'⟩
          · exact absurd hnone (by simp)
          · rw [Option.some_inj] at ht'
            subst ht'
            exact absurd hle' hle

theorem throttled_nonwrite_update (m : StrMap Int) (e : String) (now : Int)
    (h : (throttledHeartbeat m e false now).1 = true) :
    (throttledHeartbeat m e false now).2 e = some now := by
  unfold throttledHeartbeat at h ⊢
  match hm : m e with
  | none => simp [hm, mapInsert]
  | some t =>
      simp only [hm] at h ⊢
      by_cases hle : eventDebounceMs ≤ now - t
      · simp [hle, mapInsert]
      · rw [if_neg hle] at h
        exact absurd h (by simp)

theorem throttled_nonwrite_reject (m : StrMap Int) (e : String) (now : Int)
    (h : (throttledHeartbeat m e false now).1 = false) :
    (throttledHeartbeat m e false now).2 = m := by
  unfold throttledHeartbeat at h ⊢
  match hm : m e with
  | none => simp [hm] at h
  | some t =>
      simp only [hm] at h ⊢
      by_cases hle : eventDebounceMs ≤ now - t
      · rw [if_pos hle] at h
        exact absurd h (by simp)
      · rw [if_neg hle]
        rfl

theorem admittedTimes_nil (e : String) (m : StrMap Int) : admittedTimes e m [] = [] := rfl

theorem admittedTimes_cons_admitted (e : String) (m : StrMap Int) (t : Int) (ts : List Int)
    (h : (throttledHeartbeat m e false t).1 = true) :
    admittedTimes e m (t :: ts)
      = t :: admittedTimes e (throttledHeartbeat m e false t).2 ts := by
  simp [admittedTimes, runThrottleLog, h]

theorem admittedTimes_cons_rejected (e : String) (m : StrMap Int) (t : Int) (ts : List Int)
    (h : (throttledHeartbeat m e false t).1 = false) :
    admittedTimes e m (t :: ts) = admittedTimes e m ts := by
  have hm := throttled_nonwrite_reject m e t h
  simp [admittedTimes, runThrottleLog, h, hm]

theorem runThrottle_chain_from (e : String) :
    ∀ (ts : List Int) (m : StrMap Int) (t0 : Int), m e = some t0 →
      List.Chain (fun a b => a + eventDebounceMs ≤ b) t0 (admittedTimes e m ts) := by
  intro ts
  induction ts with
  | nil =>
      intro m t0 _
      rw [admittedTimes_nil]
      exact List.Chain.nil
  | cons t ts ih =>
      intro m t0 h
      by_cases hadm : (throttledHeartbeat m e false t).1 = true
      · rw [admittedTimes_cons_admitted e m t ts hadm]
        have hle : eventDebounceMs ≤ t - t0 := by
          rcases (throttled_nonwrite_iff m e t).mp hadm with hnone | ⟨t', ht', hle'⟩
          · rw [h] at hnone; exact absurd hnone (by simp)
          · rw [h, Option.some_inj] at ht'
            subst ht'
            exact hle'
        refine List.Chain.cons (by omega) ?_
        exact ih (throttledHeartbeat m e false t).2 t (throttled_nonwrite_update m e t hadm)
      · have hrej : (throttledHeartbeat m e false t).1 = false := by
          revert hadm
          match (throttledHeartbeat m e false t).1 with
          | true => intro hadm; exact absurd rfl hadm
          | false => intro _; rfl
        rw [admittedTimes_cons_rejected e m t ts hrej]
        exact ih m t0 h

theorem runThrottle_chain (e : String) :
    ∀ (ts : List Int) (m : StrMap Int),
      List.Chain' (fun a b => a + eventDebounceMs ≤ b) (admittedTimes e m ts) := by
  intro ts
  induction ts with
  | nil =>
      intro m
      rw [admittedTimes_nil]
      trivial
  | cons t ts ih =>
      intro m
      match hm : m e with
      | some t0 =>
          have hch := runThrottle_chain_from e (t :: ts) m t0 hm
          match hl : admittedTimes e m (t :: ts) with
          | [] => trivial
          | a :: l =>
              rw [hl] at hch
              cases hch with
              | cons _ hrest => exact hrest
      | none =>
          have hadm : (throttledHeartbeat m e false t).1 = true :=
            (throttled_nonwrite_iff m e t).mpr (Or.inl hm)
          rw [admittedTimes_cons_admitted e m t ts hadm]
          show List.Chain (fun a b => a + eventDebounceMs ≤ b) t
            (admittedTimes e (throttledHeartbeat m e false t).2 ts)
          exact runThrottle_chain_from e ts (throttledHeartbeat m e false t).2 t
            (throttled_nonwrite_update m e t hadm)

theorem chain_all_ge :
    ∀ (l : List Int) (t : Int),
      List.Chain (fun a b => a + eventDebounceMs ≤ b) t l →
        ∀ x ∈ l, t + eventDebounceMs ≤ x := by
  intro l
  induction l with
  | nil => intro t _ x hx; simp at hx
  | cons b l ih =>
      intro t hch x hx
      cases hch with
      | cons hab hrest =>
          rcases List.mem_cons.mp hx with hxb | hx'
          · subst hxb; exact hab
          · have := ih b hrest x hx'
            have : eventDebounceMs = (50 : Int) := rfl
            omega

theorem chain_window_le_one :
    ∀ (l : List Int),
      List.Chain' (fun a b => a + eventDebounceMs ≤ b) l →
        ∀ a : Int,
          (l.filter (fun t => decide (a ≤ t) && decide (t < a + eventDebounceMs))).length ≤ 1 := by
  intro l
  induction l with
  | nil => intro _ a; simp
  | cons t l ih =>
      intro hch a
      have hch' : List.Chain' (fun a b => a + eventDebounceMs ≤ b) l := by
        match l, hch with
        | [], _ => trivial
        | b :: l', List.Chain.cons _ hrest => exact hrest
      by_cases hin : a ≤ t ∧ t < a + eventDebounceMs
      · have hge : ∀ x ∈ l, t + eventDebounceMs ≤ x := by
          intro x hx
          exact chain_all_ge l t hch x hx
        rw [List.filter_cons_of_pos (by simp [hin.1, hin.2])]
        have hemp : l.filter (fun t => decide (a ≤ t) && decide (t < a + eventDebounceMs)) = [] := by
          rw [List.filter_eq_nil_iff]
          intro x hx
          have h1 := hge x hx
          have h2 : eventDebounceMs = (50 : Int) := rfl
          simp only [Bool.and_eq_true, decide_eq_true_eq, not_and]
          intro h3
          omega
        rw [hemp]
        simp
      · rw [List.filter_cons_of_neg (by simpa using hin)]
        exact ih hch' a

/-- Claim C1: a write event is always admitted and updates the document's
last-event timestamp; a non-write event is admitted exactly when no event
for the document was ever recorded or at least the debounce window (50 ms)
has elapsed since the last admitted event, updating the timestamp on
admission and leaving the table untouched on rejection; consequently, in
any run of non-write events on one document, any 50 ms window contains at
most one admitted event. -/
theorem claim_C1_event_throttle :
    (∀ (m : StrMap Int) (e : String) (now : Int),
      (throttledHeartbeat m e true now).1 = true
      ∧ (throttledHeartbeat m e true now).2 e = some now)
    ∧ (∀ (m : StrMap Int) (e : String) (now : Int),
        ((throttledHeartbeat m e false now).1 = true
          ↔ (m e = none ∨ ∃ t, m e = some t ∧ eventDebounceMs ≤ now - t)))
    ∧ (∀ (m : StrMap Int) (e : String) (now : Int),
        (throttledHeartbeat m e false now).1 = true →
          (throttledHeartbeat m e false now).2 e = some now)
    ∧ (∀ (m : StrMap Int) (e : String) (now : Int),
        (throttledHeartbeat m e false now).1 = false →
          (throttledHeartbeat m e false now).2 = m)
    ∧ (∀ (e : String) (m : StrMap Int) (ts : List Int) (a : Int),
        ((admittedTimes e m ts).filter
            (fun t => decide (a ≤ t) && decide (t < a + eventDebounceMs))).length ≤ 1) :=
  ⟨throttled_write_spec, throttled_nonwrite_iff, throttled_nonwrite_update,
   throttled_nonwrite_reject,
   fun e m ts a => chain_window_le_one (admittedTimes e m ts) (runThrottle_chain e ts m) a⟩

/-- Claim C1 witness: on a fresh table a change event is admitted and
records its time; a write occurring 10 ms later is still admitted; a
change event 10 ms after that on the same document is rejected and the
run of change events at 0, 10 and 60 ms admits two events 60 ms apart but
at most one in the window starting at 0. -/
theorem claim_C1_event_throttle_witness :
    (throttledHeartbeat mapEmpty "/a.go" false 100).2 "/a.go" = some 100
    ∧ (throttledHeartbeat (mapInsert mapEmpty "/a.go" 100) "/a.go" true 110).1 = true
    ∧ (throttledHeartbeat (mapInsert mapEmpty "/a.go" 110) "/a.go" false 120).1 = false
    ∧ ((admittedTimes "/a.go" mapEmpty [0, 10, 60]).filter
        (fun t => decide ((0 : Int) ≤ t) && decide (t < 0 + eventDebounceMs))).length ≤ 1 :=
  ⟨claim_C1_event_throttle.2.2.1 mapEmpty "/a.go" 100 (by decide),
   (claim_C1_event_throttle.1 (mapInsert mapEmpty "/a.go" 100) "/a.go" 110).1,
   by
    have h := (claim_C1_event_throttle.2.1 (mapInsert mapEmpty "/a.go" 110) "/a.go" 120)
    by_cases hb : (throttledHeartbeat (mapInsert mapEmpty "/a.go" 110) "/a.go" false 120).1 = true
    · exact absurd (h.mp hb) (by decide)
    · simpa using hb,
   claim_C1_event_throttle.2.2.2.2 "/a.go" mapEmpty [0, 10, 60] 0⟩

theorem isSpecialChar_digitChar (k : Nat) (h : k < 10) :
    isSpecialChar (digitChar k) = false := by
  interval_cases k <;> decide

theorem natDigitsAux_chars :
    ∀ (fuel n : Nat), ∀ c ∈ natDigitsAux fuel n, isSpecialChar c = false := by
  intro fuel
  induction fuel with
  | zero => intro n c hc; simp [natDigitsAux] at hc
  | succ fuel ih =>
      intro n c hc
      unfold natDigitsAux at hc
      split at hc
      · rename_i h
        rw [List.mem_singleton] at hc
        subst hc
        exact isSpecialChar_digitChar n h
      · rename_i h
        rcases List.mem_append.mp hc with hc' | hc'
        · exact ih (n / 10) c hc'
        · rw [List.mem_singleton] at hc'
          subst hc'
          exact isSpecialChar_digitChar (n % 10) (Nat.mod_lt _ (by omega))

theorem natDigits_chars (n : Nat) : ∀ c ∈ natDigits n, isSpecialChar c = false :=
  natDigitsAux_chars (n + 1) n

theorem any_special_eq_false (l : List Char) (h : ∀ c ∈ l, isSpecialChar c = false) :
    l.any isSpecialChar = false := by
  rw [List.any_eq_false]
  intro c hc
  simp [h c hc]

theorem needsQuoting_itoa (n : Int) : needsQuoting (itoa n) = false := by
  unfold itoa needsQuoting
  split
  · refine any_special_eq_false _ ?_
    intro c hc
    rcases List.mem_cons.mp hc with hc' | hc'
    · subst hc'; decide
    · exact natDigits_chars n.natAbs c hc'
  · exact any_special_eq_false _ (natDigits_chars n.natAbs)

theorem needsQuoting_fmtTime3 (ms : Int) : needsQuoting (fmtTime3 ms) = false := by
  unfold fmtTime3 needsQuoting
  refine any_special_eq_false _ ?_
  intro c hc
  simp only [List.mem_append, List.mem_cons] at hc
  rcases hc with (hc' | hc') | hc' | hc'
  · split at hc'
    · rw [List.mem_singleton] at hc'
      subst hc'; decide
    · simp at hc'
  · exact natDigits_chars _ c hc'
  · subst hc'; decide
  · rcases hc' with hc'' | hc'' | hc'' | hc''
    · subst hc''; exact isSpecialChar_digitChar _ (by omega)
    · subst hc''; exact isSpecialChar_digitChar _ (Nat.mod_lt _ (by omega))
    · subst hc''; exact isSpecialChar_digitChar _ (Nat.mod_lt _ (by omega))
    · simp at hc''

theorem quoteArg_of_plain (v : String) (h : needsQuoting v = false) : quoteArg v = v := by
  unfold quoteArg
  rw [h]
  rfl

theorem quoteArg_data_of_special (v : String) (h : needsQuoting v = true) :
    (quoteArg v).data = '"' :: (escapeQuotes v.data ++ ['"']) := by
  unfold quoteArg
  rw [h]
  rfl

theorem isWrapped_quoteArg_of_special (v : String) (h : needsQuoting (quoteArg v) = true) :
    IsWrapped (quoteArg v) := by
  by_cases hv : needsQuoting v = true
  · exact ⟨escapeQuotes v.data, quoteArg_data_of_special v hv⟩
  · rw [Bool.not_eq_true] at hv
    rw [quoteArg_of_plain v hv] at h
    rw [h] at hv
    exact absurd hv (by simp)

theorem asw_nil : AllSpecialValuesWrapped [] := by
  intro v hv
  simp at hv

theorem asw_append {l₁ l₂ : List String} (h₁ : AllSpecialValuesWrapped l₁)
    (h₂ : AllSpecialValuesWrapped l₂) : AllSpecialValuesWrapped (l₁ ++ l₂) := by
  intro v hv hq
  rcases List.mem_append.mp hv with h | h
  · exact h₁ v h hq
  · exact h₂ v h hq

theorem asw_ite (c : Prop) [Decidable c] {l₁ l₂ : List String}
    (h₁ : AllSpecialValuesWrapped l₁) (h₂ : AllSpecialValuesWrapped l₂) :
    AllSpecialValuesWrapped (if c then l₁ else l₂) := by
  split
  · exact h₁
  · exact h₂

theorem asw_pair_quote (flag : String) (hf : needsQuoting flag = false) (v : String) :
    AllSpecialValuesWrapped [flag, quoteArg v] := by
  intro w hw hq
  rcases List.mem_cons.mp hw with hw' | hw'
  · subst hw'
    rw [hf] at hq
    exact absurd hq (by simp)
  · rw [List.mem_singleton] at hw'
    subst hw'
    exact isWrapped_quoteArg_of_special v hq

theorem asw_pair_plain (flag val : String) (hf : needsQuoting flag = false)
    (hv : needsQuoting val = false) : AllSpecialValuesWrapped [flag, val] := by
  intro w hw hq
  rcases List.mem_cons.mp hw with hw' | hw'
  · subst hw'
    rw [hf] at hq
    exact absurd hq (by simp)
  · rw [List.mem_singleton] at hw'
    subst hw'
    rw [hv] at hq
    exact absurd hq (by simp)

theorem asw_single (flag : String) (hf : needsQuoting flag = false) :
    AllSpecialValuesWrapped [flag] := by
  intro w hw hq
  rw [List.mem_singleton] at hw
  subst hw
  rw [hf] at hq
  exact absurd hq (by simp)

theorem buildHeartbeatArgs_quoted (env : ArgsEnv) (hb : Heartbeat)
    (hcat : needsQuoting hb.Category = false) :
    AllSpecialValuesWrapped (buildHeartbeatArgs env hb) := by
  unfold buildHeartbeatArgs
  refine asw_append (asw_append (asw_append (asw_append (asw_append (asw_append
    (asw_append (asw_append (asw_append (asw_append (asw_append (asw_append
    (asw_append (asw_append (asw_append (asw_append
      (asw_pair_quote "--entity" (by decide) _)
      (asw_pair_plain "--time" _ (by decide) (needsQuoting_fmtTime3 _)))
      (asw_pair_quote "--plugin" (by decide) _))
      (asw_pair_plain "--lineno" _ (by decide) (needsQuoting_itoa _)))
      (asw_pair_plain "--cursorpos" _ (by decide) (needsQuoting_itoa _)))
      (asw_pair_plain "--lines-in-file" _ (by decide) (needsQuoting_itoa _)))
      (asw_ite _ (asw_pair_plain "--category" _ (by decide) hcat) asw_nil))
      (asw_ite _ (asw_pair_plain "--ai-line-changes" _ (by decide) (needsQuoting_itoa _)) asw_nil))
      (asw_ite _ (asw_pair_plain "--human-line-changes" _ (by decide) (needsQuoting_itoa _)) asw_nil))
      (asw_ite _ (asw_pair_quote "--key" (by decide) _) asw_nil))
      (asw_ite _ (asw_pair_quote "--api-url" (by decide) _) asw_nil))
      (asw_ite _ (asw_pair_quote "--alternate-project" (by decide) _) asw_nil))
      (asw_ite _ (asw_pair_quote "--project-folder" (by decide) _) asw_nil))
      (asw_ite _ (asw_single "--write" (by decide)) asw_nil))
      (asw_ite _ (asw_append
        (asw_ite _ (asw_pair_quote "--config" (by decide) _) asw_nil)
        (asw_ite _ (asw_pair_quote "--log-file" (by decide) _) asw_nil)) asw_nil))
      (asw_ite _ (asw_single "--is-unsaved-entity" (by decide)) asw_nil))
      (asw_ite _ (asw_pair_quote "--local-file" (by decide) _) asw_nil)

/-- Claim C7 counterexample: with a category value containing a space, the
built argument vector contains that value unquoted, so not every flag
value containing a space, tab, quote or backslash is rendered wrapped in
double quotes: the category value is appended verbatim. -/
theorem claim_C7_counterexample :
    "a b" ∈ buildHeartbeatArgs {} { Category := "a b" }
    ∧ needsQuoting "a b" = true
    ∧ ¬ IsWrapped "a b"
    ∧ ¬ AllSpecialValuesWrapped (buildHeartbeatArgs {} { Category := "a b" }) := by
  have hmem : "a b" ∈ buildHeartbeatArgs {} { Category := "a b" } := by decide
  have hq : needsQuoting "a b" = true := by decide
  have hnw : ¬ IsWrapped "a b" := by
    intro hw
    obtain ⟨mid, hmid⟩ := hw
    have hdata : "a b".data = ['a', ' ', 'b'] := rfl
    rw [hdata] at hmid
    injection hmid with h1 _
    exact absurd h1 (by decide)
  exact ⟨hmem, hq, hnw, fun h => hnw (h "a b" hmem hq)⟩

/-- Claim C7 (amended): values that contain none of space, tab, double
quote or backslash are rendered unchanged by the quoting function, and
values that do are wrapped in double quotes with embedded double quotes
backslash-escaped; every flag value except the category value passes
through the quoting function, so whenever the category value contains no
such character, every value in the built argument vector containing such
a character is quote-wrapped; in particular `/path/with space.txt` is
rendered quoted and `/plain.txt` unchanged. -/
theorem claim_C7_argument_quoting :
    (∀ v : String, needsQuoting v = false → quoteArg v = v)
    ∧ (∀ v : String, needsQuoting v = true →
        (quoteArg v).data = '"' :: (escapeQuotes v.data ++ ['"']))
    ∧ (∀ (env : ArgsEnv) (hb : Heartbeat), needsQuoting hb.Category = false →
        AllSpecialValuesWrapped (buildHeartbeatArgs env hb))
    ∧ quoteArg "/path/with space.txt" = "\"/path/with space.txt\""
    ∧ quoteArg "/plain.txt" = "/plain.txt" :=
  ⟨quoteArg_of_plain, quoteArg_data_of_special, buildHeartbeatArgs_quoted,
   by decide, by decide⟩

/-- Claim C7 witness: on a heartbeat whose entity contains a space and
whose category is the program's fixed `coding`, every special-character
value in the built vector is quote-wrapped; the scenario values render as
claimed. -/
theorem claim_C7_argument_quoting_witness :
    AllSpecialValuesWrapped
      (buildHeartbeatArgs {} { Entity := "/path/with space.txt", Category := "coding" })
    ∧ quoteArg "/path/with space.txt" = "\"/path/with space.txt\""
    ∧ quoteArg "/plain.txt" = "/plain.txt" :=
  ⟨claim_C7_argument_quoting.2.2.1 {} { Entity := "/path/with space.txt", Category := "coding" }
      (by decide),
   claim_C7_argument_quoting.2.2.2.1,
   claim_C7_argument_quoting.2.2.2.2⟩

end Hackatime
